import Mathlib

/-!
Verification of the select-based chat relay server (src/chat_server_select.c)
against its natural-language specification.

The embedding models file descriptors as `Int` (the C array holds `int`; the
value 0 marks a free slot), byte buffers as `List Int`, and the observable
side effects of the dispatch code (close, send, acknowledge) as an explicit
`Event` trace.  Each definition is translated from the C source; the line
numbers in the doc comments refer to src/chat_server_select.c.
-/

namespace ChatServer

/-- MAX_CLIENTS (line 22): fixed capacity of the client registry. -/
def MAX_CLIENTS : Nat := 10

/-- BUF_SIZE (line 23): size of the receive buffer, hence the maximum message
length the server handles in one receive call. -/
def BUF_SIZE : Nat := 256

/-- Observable actions performed by the dispatch code on client handles:
closing a handle, the acknowledgment send at line 295, and a broadcast send
at line 157 together with the bytes the call delivered. -/
inductive Event where
  | closed (fd : Int)
  | ackSent (fd : Int) (bytes : List Int)
  | sent (fd : Int) (bytes : List Int)
  deriving DecidableEq, Repr

/-- The three acknowledgment bytes, the characters of "ACK", sent at line 295. -/
def ackBytes : List Int := [65, 67, 75]

/-- Embedding of broadcast_message (lines 148-174).  `sendRes fd` is the value
the send call on handle `fd` returns (-1 for a remote error, otherwise the
number of bytes accepted).  The slot scan mirrors the C loop: a slot that is
not positive is skipped, the sender is skipped, a send returning -1 closes
that recipient and zeroes its slot and the function returns at once (the
remaining slots are not visited), and otherwise the slot is kept and the
delivered bytes are the first `sendRes fd` bytes of the message.  Returns the
registry after the call and the event trace in execution order. -/
def broadcast_message (sendRes : Int → Int) (sender_fd : Int)
    (message : List Int) : List Int → List Int × List Event
  | [] => ([], [])
  | sfd :: rest =>
    if sfd ≤ 0 then
      let r := broadcast_message sendRes sender_fd message rest
      (sfd :: r.1, r.2)
    else if sfd = sender_fd then
      let r := broadcast_message sendRes sender_fd message rest
      (sfd :: r.1, r.2)
    else if sendRes sfd = -1 then
      (0 :: rest, [Event.closed sfd])
    else
      let r := broadcast_message sendRes sender_fd message rest
      (sfd :: r.1, Event.sent sfd (message.take (sendRes sfd).toNat) :: r.2)

/-- Byte content of the literal "quit" that strncmp compares against at
line 237 (the code points of q, u, i, t). -/
def quitToken : List Int := [113, 117, 105, 116]

/-- Embedding of the test `strncmp(cmd_buffer, "quit", 4) == 0` (line 237):
the comparison looks only at the first four bytes of the line read from the
control input. -/
def isQuitCommand (line : List Int) : Bool := line.take 4 == quitToken

/-- The two outcomes of the control-input dispatch: the line passed the quit
check (the server prints a shutdown banner), or it was ignored with the
message "Command ignored." -/
inductive ControlAction where
  | quitRecognized
  | ignored
  deriving DecidableEq, Repr

/-- Embedding of the branch taken by the control-input dispatch
(lines 233-245). -/
def handleControlLine (line : List Int) : ControlAction :=
  if isQuitCommand line then ControlAction.quitRecognized
  else ControlAction.ignored

/-- The externally visible effect of one pass through the control-input
dispatch: which handles were closed, whether the process exits (and with
which code), and whether the quit check succeeded. -/
structure ControlResult where
  recognizedQuit : Bool
  closedFds : List Int
  exits : Option Nat
  deriving DecidableEq, Repr

/-- Embedding of the effect of the control-input dispatch (lines 233-245).
In both branches the code only prints: the teardown and `exit(0)` at
lines 239-240 are commented out in the source, so no handle is closed, the
process does not exit, and the multiplex loop continues. -/
def controlStep (line : List Int) : ControlResult :=
  if isQuitCommand line then
    { recognizedQuit := true, closedFds := [], exits := none }
  else
    { recognizedQuit := false, closedFds := [], exits := none }

/-- Embedding of cleanup_and_exit (lines 33-54): close the listener handle
when it is valid, then close and zero every positive client slot in slot
order, and exit with code 0.  Returns the handles closed in order, the
registry afterwards, and the exit code.  In the source this function is
reachable only from sigint_handler, and main never installs that handler. -/
def cleanup_and_exit (listener : Int) (regs : List Int) :
    List Int × List Int × Nat :=
  ((if listener = -1 then [] else [listener])
      ++ regs.filter (fun c => decide (0 < c)),
   regs.map (fun c => if 0 < c then 0 else c),
   0)

/-- Embedding of the slot-assignment loop run after a successful accept
(lines 264-276): the new handle is stored in the first slot holding 0; when
no slot holds 0 the loop falls through, and the accepted handle is neither
stored nor closed. -/
def acceptAssign (afd : Int) : List Int → List Int
  | [] => []
  | c :: rest => if c = 0 then afd :: rest else c :: acceptAssign afd rest

/-- Embedding of the whole accept dispatch (lines 248-277): the registry
after the assignment scan together with the event trace of that path.  The
path contains no close call and no send call, so the trace is always empty;
in particular a handle accepted while the registry is full is left open. -/
def acceptStep (afd : Int) (regs : List Int) : List Int × List Event :=
  (acceptAssign afd regs, [])

/-- Number of occupied slots, using the occupancy test the code uses
everywhere (client_socket[i] > 0). -/
def occupiedCount (regs : List Int) : Nat :=
  (regs.filter (fun c => decide (0 < c))).length

/-- What the code does with the result of the readiness wait: whether control
falls through to the dispatch phase of the same iteration, whether an error
is logged, and whether the process terminates. -/
structure WaitHandling where
  proceedsToDispatch : Bool
  logged : Bool
  fatal : Bool
  deriving DecidableEq, Repr

/-- Embedding of the select-result check (lines 223-230).  The error branch
runs exactly when `activity < 0` and errno is not EINTR; it logs through
perror and abandons the iteration with continue.  In every other case —
including a wait interrupted by a signal, where select returned -1 with
errno equal to EINTR — control falls through to the dispatch phase of the
same iteration.  Nothing in this check terminates the process. -/
def handleWaitResult (activity : Int) (errnoIsEINTR : Bool) : WaitHandling :=
  if activity < 0 ∧ errnoIsEINTR = false then
    { proceedsToDispatch := false, logged := true, fatal := false }
  else
    { proceedsToDispatch := true, logged := false, fatal := false }

/-- Embedding of the null-terminator store `buffer_test[recv_bytes] = 0`
(line 292) into the local buffer `char buffer_test[BUF_SIZE]` (line 284):
the updated buffer when the index is inside the buffer, and `none` when the
store falls outside it. -/
def storeNullTerm (buf : List Int) (L : Nat) : Option (List Int) :=
  if L < buf.length then some (buf.set L 0) else none

/-- The count argument passed to recv at line 285 is BUF_SIZE, so a
successful receive may report any length up to this bound. -/
def recvCount : Nat := BUF_SIZE

/-- Result of the recv call on a ready client handle (line 285): a
non-positive return (peer closed or errored), or a positive length together
with the received bytes. -/
inductive RecvOutcome where
  | disconnect
  | data (bytes : List Int)
  deriving DecidableEq, Repr

/-- Embedding of the per-client dispatch loop (lines 280-300), iterating the
given slot indices over the registry.  For each index whose slot holds a
positive handle that is in the ready set: a non-positive recv closes the
handle, zeroes the slot and moves on without any send; a positive recv of
`bytes` sends the acknowledgment (line 295, its result is bound and never
used, exactly as the C code discards the return value of that send) and then
runs broadcast_message on the current registry.  Later indices see the
registry as updated by earlier steps, matching the mutation of the global
array in C. -/
def clientLoopIdx (ready : Int → Bool) (outcome : Int → RecvOutcome)
    (sendRes : Int → Int) (ackRes : Int → Int) :
    List Nat → List Int → List Int × List Event
  | [], regs => (regs, [])
  | i :: is, regs =>
    let cfd := regs.getD i 0
    if 0 < cfd ∧ ready cfd = true then
      match outcome cfd with
      | RecvOutcome.disconnect =>
        let r := clientLoopIdx ready outcome sendRes ackRes is (regs.set i 0)
        (r.1, Event.closed cfd :: r.2)
      | RecvOutcome.data bytes =>
        let _ := ackRes cfd
        let b := broadcast_message sendRes cfd bytes regs
        let r := clientLoopIdx ready outcome sendRes ackRes is b.1
        (r.1, Event.ackSent cfd ackBytes :: (b.2 ++ r.2))
    else
      clientLoopIdx ready outcome sendRes ackRes is regs

/-- The per-client dispatch loop of one iteration: the C loop runs the index
i over 0, 1, ..., MAX_CLIENTS - 1 (line 280). -/
def clientLoop (ready : Int → Bool) (outcome : Int → RecvOutcome)
    (sendRes : Int → Int) (ackRes : Int → Int) (regs : List Int) :
    List Int × List Event :=
  clientLoopIdx ready outcome sendRes ackRes (List.range MAX_CLIENTS) regs

/-- Slot index `j` is processed by the dispatch loop exactly when it holds a
positive handle that the readiness set contains (the test at line 283). -/
def activeAt (ready : Int → Bool) (regs : List Int) (j : Nat) : Prop :=
  0 < regs.getD j 0 ∧ ready (regs.getD j 0) = true

/-- A broadcast-send event keeps clear of the sender: the predicate every
broadcast trace satisfies for claim C6. -/
def notToSender (sender : Int) : Event → Bool
  | Event.sent fd _ => fd != sender
  | _ => true

/-- The control line "quit" followed by the newline fgets keeps. -/
def quitLine : List Int := [113, 117, 105, 116, 10]

/-- The control line "quite" followed by a newline: not the quit token, yet
its first four bytes are q, u, i, t. -/
def quiteLine : List Int := [113, 117, 105, 116, 101, 10]

/-- A full registry: ten distinct positive handles, no slot holds 0. -/
def fullRegs : List Int := [3, 4, 5, 6, 7, 8, 9, 10, 11, 12]

/-- Send-result function for the C2 scenario: the send to handle 3 fails
with -1, every other send accepts one byte. -/
def sendResFail3 : Int → Int := fun fd => if fd = 3 then -1 else 1

/-- C1: the spec says the quit directive makes the server close the listening
handle and every occupied client handle and exit with code 0.  The code only
prints a banner: the control dispatch on the quit line closes no handle and
does not exit (the teardown at lines 239-240 is commented out), while the
teardown routine cleanup_and_exit — which would close listener 3 and clients
4 and 5 in order and exit 0 — is never invoked from the loop.  The first
equation evaluates the code at the failing input; the second shows what the
claimed behavior would have been. -/
theorem C1_quit_directive_has_no_effect :
    controlStep quitLine =
      { recognizedQuit := true, closedFds := [], exits := none }
    ∧ cleanup_and_exit 3 [4, 5, 0, 0, 0, 0, 0, 0, 0, 0]
      = ([3, 4, 5], [0, 0, 0, 0, 0, 0, 0, 0, 0, 0], 0) := by
  decide

/-- C4: the claim says the null-terminator store at index L is in bounds for
every positive L up to BUF_SIZE.  The recv call is made with count BUF_SIZE,
so L = BUF_SIZE is a possible receive length, and at that length the store
at index L falls outside the BUF_SIZE-byte buffer: a one-past-the-end
write. -/
theorem C4_null_store_out_of_bounds :
    storeNullTerm (List.replicate BUF_SIZE 0) BUF_SIZE = none
    ∧ recvCount = BUF_SIZE := by
  refine ⟨?_, rfl⟩
  simp [storeNullTerm]

/-- C8 counterexample: when select is interrupted by a signal (returns -1
with errno EINTR) the claim says no dispatch occurs in that iteration.  The
code merely skips the error branch: control falls through to the dispatch
phase, and nothing is logged. -/
theorem C8_counterexample :
    (handleWaitResult (-1) true).proceedsToDispatch = true
    ∧ (handleWaitResult (-1) true).logged = false := by
  decide

/-- C8 amended: a wait interrupted by a recoverable signal skips the error
branch (nothing logged) and the iteration proceeds to the dispatch checks
rather than retrying the wait; a wait failing with any other error is
logged and the iteration is abandoned while the loop continues; a wait
error is never fatal. -/
theorem C8_wait_error_handling (activity : Int) (e : Bool) :
    handleWaitResult activity true =
      { proceedsToDispatch := true, logged := false, fatal := false }
    ∧ (activity < 0 →
        handleWaitResult activity false =
          { proceedsToDispatch := false, logged := true, fatal := false })
    ∧ (handleWaitResult activity e).fatal = false := by
  refine ⟨?_, ?_, ?_⟩
  · simp [handleWaitResult]
  · intro h
    rw [handleWaitResult, if_pos ⟨h, rfl⟩]
  · rw [handleWaitResult]
    split <;> rfl

/-- Witness for C8_wait_error_handling at activity -1. -/
theorem C8_wait_error_handling_witness :
    handleWaitResult (-1) true =
      { proceedsToDispatch := true, logged := false, fatal := false }
    ∧ handleWaitResult (-1) false =
      { proceedsToDispatch := false, logged := true, fatal := false }
    ∧ (handleWaitResult (-1) false).fatal = false :=
  ⟨(C8_wait_error_handling (-1) false).1,
   (C8_wait_error_handling (-1) false).2.1 (by decide),
   (C8_wait_error_handling (-1) false).2.2⟩

/-- C9 counterexample: the line "quite" (with its newline) is recognized as
the shutdown directive by the code, although it is not the exact token
"quit" — neither bare nor followed by a newline. -/
theorem C9_counterexample :
    handleControlLine quiteLine = ControlAction.quitRecognized
    ∧ (quiteLine == quitToken) = false
    ∧ (quiteLine == quitToken ++ [10]) = false := by
  decide

/-- The quit check of line 237 holds exactly when the line begins with the
four bytes of the token. -/
theorem take4_eq_iff (line : List Int) :
    line.take 4 = quitToken ↔ ∃ rest, line = quitToken ++ rest := by
  constructor
  · intro h
    exact ⟨line.drop 4, by rw [← h, List.take_append_drop]⟩
  · rintro ⟨rest, rfl⟩
    exact List.take_left quitToken rest

/-- C9 amended: a control line is recognized as the shutdown directive if
and only if its first four bytes are exactly the case-sensitive bytes of
"quit" (a leading-bytes match, so longer lines beginning with quit also
match); every other line is ignored — those are the only two outcomes, so
no input produces an error. -/
theorem C9_directive_is_leading_quit_bytes (line : List Int) :
    (handleControlLine line = ControlAction.quitRecognized ↔
      ∃ rest, line = quitToken ++ rest)
    ∧ (handleControlLine line = ControlAction.quitRecognized
        ∨ handleControlLine line = ControlAction.ignored) := by
  constructor
  · rw [← take4_eq_iff]
    rw [handleControlLine, isQuitCommand]
    by_cases h : line.take 4 = quitToken
    · simp [h]
    · simp [h]
  · rw [handleControlLine]
    split
    · exact Or.inl rfl
    · exact Or.inr rfl

/-- Witness for C9_directive_is_leading_quit_bytes: the exact quit line is
recognized. -/
theorem C9_directive_is_leading_quit_bytes_witness :
    handleControlLine quitLine = ControlAction.quitRecognized :=
  (C9_directive_is_leading_quit_bytes quitLine).1.mpr ⟨[10], rfl⟩

/-- C3 counterexample: with all ten slots occupied, accepting handle 13
leaves the registry unchanged and performs no event at all — in particular
the new connection is not closed, contrary to the claim that a connection
accepted while the registry is full is closed immediately. -/
theorem C3_counterexample :
    occupiedCount fullRegs = MAX_CLIENTS
    ∧ acceptStep 13 fullRegs = (fullRegs, []) := by
  decide

/-- The assignment scan never changes the number of slots. -/
theorem acceptAssign_length (afd : Int) :
    ∀ regs : List Int, (acceptAssign afd regs).length = regs.length
  | [] => rfl
  | c :: rest => by
    rw [acceptAssign]
    by_cases h : c = 0
    · simp [h]
    · simp [h, acceptAssign_length afd rest]

/-- At most as many occupied slots as slots. -/
theorem occupiedCount_le_length (regs : List Int) :
    occupiedCount regs ≤ regs.length :=
  List.length_filter_le _ regs

/-- A sequence of accept dispatches never changes the number of slots. -/
theorem foldl_accept_length :
    ∀ (afds : List Int) (regs : List Int),
      (afds.foldl (fun r a => (acceptStep a r).1) regs).length = regs.length
  | [], _ => rfl
  | a :: as, regs => by
    rw [List.foldl_cons, foldl_accept_length as]
    exact acceptAssign_length a regs

/-- The assignment scan stores the handle at the first index whose slot
holds 0 (the index findIdx computes) and leaves the registry unchanged when
there is no such index. -/
theorem acceptAssign_eq_findIdx (afd : Int) :
    ∀ regs : List Int,
      acceptAssign afd regs =
        if regs.findIdx (fun c => c == 0) < regs.length
        then regs.set (regs.findIdx (fun c => c == 0)) afd
        else regs
  | [] => by simp [acceptAssign]
  | c :: rest => by
    rw [acceptAssign]
    by_cases h : c = 0
    · subst h
      simp [List.findIdx_cons]
    · have hb : (c == (0 : Int)) = false := by simp [h]
      rw [if_neg h, List.findIdx_cons, hb, cond_false]
      by_cases h2 : rest.findIdx (fun c => c == 0) < rest.length
      · rw [acceptAssign_eq_findIdx afd rest, if_pos h2,
          if_pos (by simpa using Nat.succ_lt_succ h2)]
        rfl
      · rw [acceptAssign_eq_findIdx afd rest, if_neg h2,
          if_neg (by simpa using fun hc => h2 (Nat.lt_of_succ_lt_succ hc))]

/-- C3 amended: over any sequence of accepts the number of occupied slots
never exceeds the fixed capacity; an accept dispatch stores the new handle
in the first free slot when one exists and otherwise leaves the registry
unchanged, and in either case it closes nothing and sends nothing — a
connection accepted while the registry is full is left open and untracked,
not closed. -/
theorem C3_capacity_and_first_free (regs afds : List Int) (afd : Int)
    (hlen : regs.length = MAX_CLIENTS) :
    occupiedCount (afds.foldl (fun r a => (acceptStep a r).1) regs)
      ≤ MAX_CLIENTS
    ∧ acceptStep afd regs
      = (if regs.findIdx (fun c => c == 0) < regs.length
         then regs.set (regs.findIdx (fun c => c == 0)) afd
         else regs,
         []) := by
  constructor
  · calc occupiedCount (afds.foldl (fun r a => (acceptStep a r).1) regs)
        ≤ (afds.foldl (fun r a => (acceptStep a r).1) regs).length :=
          occupiedCount_le_length _
      _ = regs.length := foldl_accept_length afds regs
      _ = MAX_CLIENTS := hlen
  · rw [acceptStep, acceptAssign_eq_findIdx]

/-- Witness for C3_capacity_and_first_free on the full registry. -/
theorem C3_capacity_and_first_free_witness :
    List.length fullRegs = MAX_CLIENTS
    ∧ (occupiedCount ([(20 : Int)].foldl (fun r a => (acceptStep a r).1)
          fullRegs) ≤ MAX_CLIENTS
       ∧ acceptStep 13 fullRegs
         = (if fullRegs.findIdx (fun c => c == 0) < fullRegs.length
            then fullRegs.set (fullRegs.findIdx (fun c => c == 0)) 13
            else fullRegs,
            [])) :=
  ⟨by decide, C3_capacity_and_first_free fullRegs [20] 13 (by decide)⟩

/-- C2 counterexample: registry [2,3,4,0,...], sender 2, and a send to
handle 3 failing.  The broadcast closes handle 3 and returns at once: the
whole event trace is the single close, so the occupied non-sender handle 4
— later in slot order than the failure — never receives the message,
contrary to the claim that every remaining recipient still receives it. -/
theorem C2_counterexample :
    broadcast_message sendResFail3 2 [104] [2, 3, 4, 0, 0, 0, 0, 0, 0, 0]
      = ([2, 0, 4, 0, 0, 0, 0, 0, 0, 0], [Event.closed 3]) := by
  decide

/-- C2 amended: when the send to one recipient fails, that recipient is
closed and its slot released and the broadcast returns at once — every
eligible recipient earlier in slot order has already received its send, no
recipient later in slot order receives anything, and no slot other than the
failing one changes. -/
theorem C2_failure_aborts_broadcast (sendRes : Int → Int) (sender : Int)
    (msg : List Int) (f : Int) (post : List Int)
    (hf : 0 < f) (hfs : f ≠ sender) (hfail : sendRes f = -1) :
    ∀ pre : List Int,
      (∀ c ∈ pre, 0 < c → c ≠ sender → sendRes c ≠ -1) →
      broadcast_message sendRes sender msg (pre ++ f :: post)
        = (pre ++ 0 :: post,
           (pre.filter (fun c => decide (0 < c) && (c != sender))).map
               (fun c => Event.sent c (msg.take (sendRes c).toNat))
             ++ [Event.closed f])
  | [], _ => by
    rw [List.nil_append, broadcast_message, if_neg (by omega),
      if_neg hfs, if_pos hfail]
    simp
  | c :: pre, hpre => by
    have ih := C2_failure_aborts_broadcast sendRes sender msg f post
      hf hfs hfail pre (fun d hd => hpre d (List.mem_cons_of_mem c hd))
    rw [List.cons_append, broadcast_message]
    by_cases hc : c ≤ 0
    · rw [if_pos hc, ih]
      have : (decide (0 < c) && (c != sender)) = false := by
        simp
        omega
      simp [List.filter_cons, this]
    · by_cases hcs : c = sender
      · rw [if_neg hc, if_pos hcs, ih]
        have : (decide (0 < c) && (c != sender)) = false := by
          simp [hcs]
        simp [List.filter_cons, this]
      · have hok : sendRes c ≠ -1 :=
          hpre c (List.mem_cons_self c pre) (lt_of_not_le hc) hcs
        rw [if_neg hc, if_neg hcs, if_neg hok, ih]
        have : (decide (0 < c) && (c != sender)) = true := by
          simp [lt_of_not_le hc, hcs]
        simp [List.filter_cons, this]

/-- Witness for C2_failure_aborts_broadcast: registry [2,9,3,4,0,...] with
sender 2; the send to 3 fails, so 9 (earlier) received and 4 (later) did
not, and only the slot of 3 was released. -/
theorem C2_failure_aborts_broadcast_witness :
    (0 : Int) < 3 ∧ (3 : Int) ≠ 2 ∧ sendResFail3 3 = -1
    ∧ (∀ c ∈ [(2 : Int), 9], 0 < c → c ≠ 2 → sendResFail3 c ≠ -1)
    ∧ broadcast_message sendResFail3 2 [104]
        ([2, 9] ++ 3 :: [4, 0, 0, 0, 0, 0, 0])
      = ([2, 9] ++ 0 :: [4, 0, 0, 0, 0, 0, 0],
         (([2, 9] : List Int).filter
             (fun c => decide (0 < c) && (c != 2))).map
             (fun c => Event.sent c (([104] : List Int).take
               (sendResFail3 c).toNat))
           ++ [Event.closed 3]) :=
  ⟨by decide, by decide, by decide, by decide,
   C2_failure_aborts_broadcast sendResFail3 2 [104] 3 [4, 0, 0, 0, 0, 0, 0]
     (by decide) (by decide) (by decide) [2, 9] (by decide)⟩

/-- C5: assuming every send succeeds in full (the call on each eligible
recipient returns the whole message length), a broadcast of the received
bytes leaves the registry unchanged and delivers exactly those bytes to
every occupied slot other than the sender, in slot order. -/
theorem C5_broadcast_delivers_to_all_others (sendRes : Int → Int)
    (sender : Int) (msg : List Int) :
    ∀ regs : List Int,
      (∀ c ∈ regs, 0 < c → c ≠ sender → sendRes c = (msg.length : Int)) →
      broadcast_message sendRes sender msg regs
        = (regs,
           (regs.filter (fun c => decide (0 < c) && (c != sender))).map
             (fun c => Event.sent c msg))
  | [], _ => by simp [broadcast_message]
  | c :: rest, hok => by
    have ih := C5_broadcast_delivers_to_all_others sendRes sender msg rest
      (fun d hd => hok d (List.mem_cons_of_mem c hd))
    rw [broadcast_message]
    by_cases hc : c ≤ 0
    · rw [if_pos hc, ih]
      have : (decide (0 < c) && (c != sender)) = false := by
        simp
        omega
      simp [List.filter_cons, this]
    · by_cases hcs : c = sender
      · rw [if_neg hc, if_pos hcs, ih]
        have : (decide (0 < c) && (c != sender)) = false := by simp [hcs]
        simp [List.filter_cons, this]
      · have hlen : sendRes c = (msg.length : Int) :=
          hok c (List.mem_cons_self c rest) (lt_of_not_le hc) hcs
        have hne : ¬ sendRes c = -1 := by omega
        rw [if_neg hc, if_neg hcs, if_neg hne, ih]
        have hfil : (decide (0 < c) && (c != sender)) = true := by
          simp [lt_of_not_le hc, hcs]
        have htake : msg.take (sendRes c).toNat = msg := by
          rw [hlen, Int.toNat_natCast, List.take_length]
        simp [List.filter_cons, hfil, htake]

/-- Witness for C5_broadcast_delivers_to_all_others: three occupied slots,
sender 5, two-byte message; both other occupied handles receive the exact
bytes in slot order. -/
theorem C5_broadcast_delivers_to_all_others_witness :
    (∀ c ∈ ([5, 7, 9, 0, 0, 0, 0, 0, 0, 0] : List Int),
      0 < c → c ≠ 5 → (fun _ : Int => (2 : Int)) c = ((2 : Nat) : Int))
    ∧ broadcast_message (fun _ => 2) 5 [104, 105]
        [5, 7, 9, 0, 0, 0, 0, 0, 0, 0]
      = ([5, 7, 9, 0, 0, 0, 0, 0, 0, 0],
         (([5, 7, 9, 0, 0, 0, 0, 0, 0, 0] : List Int).filter
             (fun c => decide (0 < c) && (c != 5))).map
           (fun c => Event.sent c [104, 105])) :=
  ⟨by decide,
   by
    have h := C5_broadcast_delivers_to_all_others (fun _ => 2) 5 [104, 105]
      [5, 7, 9, 0, 0, 0, 0, 0, 0, 0] (by decide)
    simpa using h⟩

/-- C6: no self-echo — every send event a broadcast emits goes to a handle
different from the sender, whatever the registry, message, and send
results. -/
theorem C6_no_self_echo (sendRes : Int → Int) (sender : Int)
    (msg : List Int) :
    ∀ regs : List Int,
      (broadcast_message sendRes sender msg regs).2.all
        (notToSender sender) = true
  | [] => by simp [broadcast_message]
  | sfd :: rest => by
    have ih := C6_no_self_echo sendRes sender msg rest
    rw [broadcast_message]
    by_cases hc : sfd ≤ 0
    · rw [if_pos hc]
      exact ih
    · by_cases hcs : sfd = sender
      · rw [if_neg hc, if_pos hcs]
        exact ih
      · by_cases hfail : sendRes sfd = -1
        · rw [if_neg hc, if_neg hcs, if_pos hfail]
          simp [notToSender]
        · rw [if_neg hc, if_neg hcs, if_neg hfail]
          simp only [List.all_cons, ih, Bool.and_true]
          simp [notToSender, hcs]

/-- One unfolding step of the dispatch loop. -/
theorem clientLoopIdx_cons (ready : Int → Bool) (outcome : Int → RecvOutcome)
    (sendRes ackRes : Int → Int) (i : Nat) (is : List Nat)
    (regs : List Int) :
    clientLoopIdx ready outcome sendRes ackRes (i :: is) regs
      = if 0 < regs.getD i 0 ∧ ready (regs.getD i 0) = true then
          match outcome (regs.getD i 0) with
          | RecvOutcome.disconnect =>
            ((clientLoopIdx ready outcome sendRes ackRes is
                (regs.set i 0)).1,
             Event.closed (regs.getD i 0)
               :: (clientLoopIdx ready outcome sendRes ackRes is
                    (regs.set i 0)).2)
          | RecvOutcome.data bytes =>
            ((clientLoopIdx ready outcome sendRes ackRes is
                (broadcast_message sendRes (regs.getD i 0) bytes regs).1).1,
             Event.ackSent (regs.getD i 0) ackBytes
               :: ((broadcast_message sendRes (regs.getD i 0) bytes regs).2
                   ++ (clientLoopIdx ready outcome sendRes ackRes is
                        (broadcast_message sendRes (regs.getD i 0) bytes
                          regs).1).2))
        else clientLoopIdx ready outcome sendRes ackRes is regs := rfl

/-- A slot that is free or not ready is passed over. -/
theorem clientLoopIdx_inactive (ready : Int → Bool)
    (outcome : Int → RecvOutcome) (sendRes ackRes : Int → Int) (i : Nat)
    (is : List Nat) (regs : List Int)
    (h : ¬ (0 < regs.getD i 0 ∧ ready (regs.getD i 0) = true)) :
    clientLoopIdx ready outcome sendRes ackRes (i :: is) regs
      = clientLoopIdx ready outcome sendRes ackRes is regs := by
  rw [clientLoopIdx_cons, if_neg h]

/-- A ready slot whose recv reports disconnection is closed and zeroed. -/
theorem clientLoopIdx_disconnect (ready : Int → Bool)
    (outcome : Int → RecvOutcome) (sendRes ackRes : Int → Int) (i : Nat)
    (is : List Nat) (regs : List Int)
    (h : 0 < regs.getD i 0 ∧ ready (regs.getD i 0) = true)
    (hout : outcome (regs.getD i 0) = RecvOutcome.disconnect) :
    clientLoopIdx ready outcome sendRes ackRes (i :: is) regs
      = ((clientLoopIdx ready outcome sendRes ackRes is (regs.set i 0)).1,
         Event.closed (regs.getD i 0)
           :: (clientLoopIdx ready outcome sendRes ackRes is
                (regs.set i 0)).2) := by
  rw [clientLoopIdx_cons, if_pos h, hout]

/-- A ready slot whose recv yields data acknowledges and broadcasts. -/
theorem clientLoopIdx_data (ready : Int → Bool)
    (outcome : Int → RecvOutcome) (sendRes ackRes : Int → Int) (i : Nat)
    (is : List Nat) (regs : List Int) (bytes : List Int)
    (h : 0 < regs.getD i 0 ∧ ready (regs.getD i 0) = true)
    (hout : outcome (regs.getD i 0) = RecvOutcome.data bytes) :
    clientLoopIdx ready outcome sendRes ackRes (i :: is) regs
      = ((clientLoopIdx ready outcome sendRes ackRes is
            (broadcast_message sendRes (regs.getD i 0) bytes regs).1).1,
         Event.ackSent (regs.getD i 0) ackBytes
           :: ((broadcast_message sendRes (regs.getD i 0) bytes regs).2
               ++ (clientLoopIdx ready outcome sendRes ackRes is
                    (broadcast_message sendRes (regs.getD i 0) bytes
                      regs).1).2)) := by
  rw [clientLoopIdx_cons, if_pos h, hout]

/-- A run of indices in which no slot is processed leaves the loop where it
started. -/
theorem clientLoopIdx_skip_before (ready : Int → Bool)
    (outcome : Int → RecvOutcome) (sendRes ackRes : Int → Int) :
    ∀ (is1 is2 : List Nat) (regs : List Int),
      (∀ j ∈ is1, ¬ (0 < regs.getD j 0 ∧ ready (regs.getD j 0) = true)) →
      clientLoopIdx ready outcome sendRes ackRes (is1 ++ is2) regs
        = clientLoopIdx ready outcome sendRes ackRes is2 regs
  | [], _, _, _ => rfl
  | i :: is1, is2, regs, h => by
    rw [List.cons_append,
      clientLoopIdx_inactive ready outcome sendRes ackRes i (is1 ++ is2)
        regs (h i (List.mem_cons_self i is1)),
      clientLoopIdx_skip_before ready outcome sendRes ackRes is1 is2 regs
        (fun j hj => h j (List.mem_cons_of_mem i hj))]

/-- When no remaining index is processed the loop finishes with the current
registry and no further events. -/
theorem clientLoopIdx_skip_all (ready : Int → Bool)
    (outcome : Int → RecvOutcome) (sendRes ackRes : Int → Int) :
    ∀ (is : List Nat) (regs : List Int),
      (∀ j ∈ is, ¬ (0 < regs.getD j 0 ∧ ready (regs.getD j 0) = true)) →
      clientLoopIdx ready outcome sendRes ackRes is regs = (regs, [])
  | [], _, _ => rfl
  | i :: is, regs, h => by
    rw [clientLoopIdx_inactive ready outcome sendRes ackRes i is regs
        (h i (List.mem_cons_self i is)),
      clientLoopIdx_skip_all ready outcome sendRes ackRes is regs
        (fun j hj => h j (List.mem_cons_of_mem i hj))]

/-- Writing one slot does not change what any other slot holds. -/
theorem getD_set_ne (v : Int) :
    ∀ (regs : List Int) (i j : Nat), j ≠ i →
      (regs.set i v).getD j 0 = regs.getD j 0
  | [], _, _, _ => by simp
  | c :: rest, 0, 0, h => absurd rfl h
  | _ :: _, 0, _ + 1, _ => by simp [List.set]
  | _ :: _, _ + 1, 0, _ => by simp [List.set]
  | c :: rest, i + 1, j + 1, h => by
    simp only [List.set, List.getD_cons_succ]
    exact getD_set_ne v rest i j (fun hh => h (by rw [hh]))

/-- A broadcast either keeps a slot or zeroes it; it never stores a new
handle. -/
theorem broadcast_getD (sendRes : Int → Int) (sender : Int)
    (msg : List Int) :
    ∀ (regs : List Int) (j : Nat),
      (broadcast_message sendRes sender msg regs).1.getD j 0
          = regs.getD j 0
      ∨ (broadcast_message sendRes sender msg regs).1.getD j 0 = 0
  | [], _ => Or.inl rfl
  | sfd :: rest, j => by
    rw [broadcast_message]
    by_cases hc : sfd ≤ 0
    · rw [if_pos hc]
      cases j with
      | zero => exact Or.inl rfl
      | succ j =>
        simpa using broadcast_getD sendRes sender msg rest j
    · by_cases hcs : sfd = sender
      · rw [if_neg hc, if_pos hcs]
        cases j with
        | zero => exact Or.inl rfl
        | succ j =>
          simpa using broadcast_getD sendRes sender msg rest j
      · by_cases hfail : sendRes sfd = -1
        · rw [if_neg hc, if_neg hcs, if_pos hfail]
          cases j with
          | zero => exact Or.inr rfl
          | succ j => exact Or.inl rfl
        · rw [if_neg hc, if_neg hcs, if_neg hfail]
          cases j with
          | zero => exact Or.inl rfl
          | succ j =>
            simpa using broadcast_getD sendRes sender msg rest j

/-- Splitting the index range of the dispatch loop around one index. -/
theorem range_split (i m : Nat) :
    List.range (i + (m + 1))
      = List.range i ++ i :: (List.range m).map (fun k => i + (k + 1)) := by
  rw [List.range_add, List.range_succ_eq_map, List.map_cons, List.map_map]
  simp [Function.comp]

/-- The dispatch loop never reads the value the acknowledgment send returns:
its outcome is the same for any two acknowledgment results. -/
theorem clientLoopIdx_ackRes_irrelevant (ready : Int → Bool)
    (outcome : Int → RecvOutcome) (sendRes a1 a2 : Int → Int) :
    ∀ (is : List Nat) (regs : List Int),
      clientLoopIdx ready outcome sendRes a1 is regs
        = clientLoopIdx ready outcome sendRes a2 is regs
  | [], _ => rfl
  | i :: is, regs => by
    by_cases h : 0 < regs.getD i 0 ∧ ready (regs.getD i 0) = true
    · cases houtcome : outcome (regs.getD i 0) with
      | disconnect =>
        rw [clientLoopIdx_disconnect ready outcome sendRes a1 i is regs h
            houtcome,
          clientLoopIdx_disconnect ready outcome sendRes a2 i is regs h
            houtcome,
          clientLoopIdx_ackRes_irrelevant ready outcome sendRes a1 a2 is
            (regs.set i 0)]
      | data bytes =>
        rw [clientLoopIdx_data ready outcome sendRes a1 i is regs bytes h
            houtcome,
          clientLoopIdx_data ready outcome sendRes a2 i is regs bytes h
            houtcome,
          clientLoopIdx_ackRes_irrelevant ready outcome sendRes a1 a2 is
            (broadcast_message sendRes (regs.getD i 0) bytes regs).1]
    · rw [clientLoopIdx_inactive ready outcome sendRes a1 i is regs h,
        clientLoopIdx_inactive ready outcome sendRes a2 i is regs h,
        clientLoopIdx_ackRes_irrelevant ready outcome sendRes a1 a2 is regs]

/-- C7: when the only ready handle is the one at slot i and its recv reports
disconnection or error, the dispatch pass closes exactly that handle,
releases exactly that slot, emits no send at all (no broadcast of an empty
message), and leaves every other slot and the loop untouched. -/
theorem C7_disconnect_releases_only_that_slot (regs : List Int) (i : Nat)
    (fd : Int) (outcome : Int → RecvOutcome) (sendRes ackRes : Int → Int)
    (hi : i < MAX_CLIENTS) (hfd : 0 < fd) (hslot : regs.getD i 0 = fd)
    (huniq : ∀ j, j < MAX_CLIENTS → j ≠ i → regs.getD j 0 ≠ fd)
    (hout : outcome fd = RecvOutcome.disconnect) :
    clientLoop (fun x => x == fd) outcome sendRes ackRes regs
      = (regs.set i 0, [Event.closed fd]) := by
  have hMC : MAX_CLIENTS = 10 := rfl
  have hm : MAX_CLIENTS = i + (MAX_CLIENTS - i - 1 + 1) := by omega
  have hne : ∀ j, regs.getD j 0 ≠ fd →
      ¬ (0 < regs.getD j 0 ∧ (regs.getD j 0 == fd) = true) := by
    intro j hj hcon
    exact hj (by simpa using hcon.2)
  have hpre : ∀ j ∈ List.range i,
      ¬ (0 < regs.getD j 0 ∧ (regs.getD j 0 == fd) = true) := by
    intro j hj
    have hji : j < i := List.mem_range.mp hj
    exact hne j (huniq j (lt_trans hji hi) (Nat.ne_of_lt hji))
  have hact : 0 < regs.getD i 0 ∧ (regs.getD i 0 == fd) = true := by
    rw [hslot]
    exact ⟨hfd, beq_self_eq_true fd⟩
  have hout2 : outcome (regs.getD i 0) = RecvOutcome.disconnect := by
    rw [hslot]
    exact hout
  have hsuf : ∀ j ∈ (List.range (MAX_CLIENTS - i - 1)).map
      (fun k => i + (k + 1)),
      ¬ (0 < (regs.set i 0).getD j 0
          ∧ ((regs.set i 0).getD j 0 == fd) = true) := by
    intro j hj
    obtain ⟨k, hk, rfl⟩ := List.mem_map.mp hj
    have hk2 : k < MAX_CLIENTS - i - 1 := List.mem_range.mp hk
    have hji : i + (k + 1) ≠ i := by omega
    have hjlt : i + (k + 1) < MAX_CLIENTS := by omega
    rw [getD_set_ne 0 regs i (i + (k + 1)) hji]
    exact hne (i + (k + 1)) (huniq (i + (k + 1)) hjlt hji)
  rw [clientLoop, hm, range_split,
    clientLoopIdx_skip_before (fun x => x == fd) outcome sendRes ackRes
      (List.range i) _ regs hpre,
    clientLoopIdx_disconnect (fun x => x == fd) outcome sendRes ackRes i _
      regs hact hout2,
    clientLoopIdx_skip_all (fun x => x == fd) outcome sendRes ackRes _
      (regs.set i 0) hsuf, hslot]

/-- Witness for C7_disconnect_releases_only_that_slot: one client on slot 0
whose peer disconnected. -/
theorem C7_disconnect_releases_only_that_slot_witness :
    (0 : Nat) < MAX_CLIENTS ∧ (0 : Int) < 7
    ∧ List.getD ([7, 0, 0, 0, 0, 0, 0, 0, 0, 0] : List Int) 0 0 = 7
    ∧ (∀ j, j < MAX_CLIENTS → j ≠ 0 →
        List.getD ([7, 0, 0, 0, 0, 0, 0, 0, 0, 0] : List Int) j 0 ≠ 7)
    ∧ clientLoop (fun x => x == 7) (fun _ => RecvOutcome.disconnect)
        (fun _ => 1) (fun _ => 1) [7, 0, 0, 0, 0, 0, 0, 0, 0, 0]
      = (([7, 0, 0, 0, 0, 0, 0, 0, 0, 0] : List Int).set 0 0,
         [Event.closed 7]) :=
  ⟨by decide, by decide, by decide, by decide,
   C7_disconnect_releases_only_that_slot [7, 0, 0, 0, 0, 0, 0, 0, 0, 0] 0 7
     (fun _ => RecvOutcome.disconnect) (fun _ => 1) (fun _ => 1)
     (by decide) (by decide) (by decide) (by decide) rfl⟩

/-- C10: when the only ready handle is the one at slot i and its recv
returns a positive-length message, the dispatch pass first emits the
three-byte acknowledgment "ACK" to that sender and then performs the
broadcast to the others, and the value the acknowledgment send returns is
never examined: the whole outcome is identical for any two acknowledgment
results. -/
theorem C10_ack_sent_before_broadcast_and_unchecked (regs : List Int)
    (i : Nat) (fd : Int) (msg : List Int) (outcome : Int → RecvOutcome)
    (sendRes ackRes ackRes2 : Int → Int)
    (hi : i < MAX_CLIENTS) (hfd : 0 < fd) (hslot : regs.getD i 0 = fd)
    (huniq : ∀ j, j < MAX_CLIENTS → j ≠ i → regs.getD j 0 ≠ fd)
    (hout : outcome fd = RecvOutcome.data msg) :
    clientLoop (fun x => x == fd) outcome sendRes ackRes regs
      = ((broadcast_message sendRes fd msg regs).1,
         Event.ackSent fd ackBytes
           :: (broadcast_message sendRes fd msg regs).2)
    ∧ clientLoop (fun x => x == fd) outcome sendRes ackRes2 regs
      = clientLoop (fun x => x == fd) outcome sendRes ackRes regs := by
  have hMC : MAX_CLIENTS = 10 := rfl
  have hm : MAX_CLIENTS = i + (MAX_CLIENTS - i - 1 + 1) := by omega
  have hne : ∀ j, regs.getD j 0 ≠ fd →
      ¬ (0 < regs.getD j 0 ∧ (regs.getD j 0 == fd) = true) := by
    intro j hj hcon
    exact hj (by simpa using hcon.2)
  have hpre : ∀ j ∈ List.range i,
      ¬ (0 < regs.getD j 0 ∧ (regs.getD j 0 == fd) = true) := by
    intro j hj
    have hji : j < i := List.mem_range.mp hj
    exact hne j (huniq j (lt_trans hji hi) (Nat.ne_of_lt hji))
  have hact : 0 < regs.getD i 0 ∧ (regs.getD i 0 == fd) = true := by
    rw [hslot]
    exact ⟨hfd, beq_self_eq_true fd⟩
  have hout2 : outcome (regs.getD i 0) = RecvOutcome.data msg := by
    rw [hslot]
    exact hout
  have hsuf : ∀ j ∈ (List.range (MAX_CLIENTS - i - 1)).map
      (fun k => i + (k + 1)),
      ¬ (0 < (broadcast_message sendRes fd msg regs).1.getD j 0
          ∧ ((broadcast_message sendRes fd msg regs).1.getD j 0 == fd)
              = true) := by
    intro j hj
    obtain ⟨k, hk, rfl⟩ := List.mem_map.mp hj
    have hk2 : k < MAX_CLIENTS - i - 1 := List.mem_range.mp hk
    have hji : i + (k + 1) ≠ i := by omega
    have hjlt : i + (k + 1) < MAX_CLIENTS := by omega
    rcases broadcast_getD sendRes fd msg regs (i + (k + 1)) with hkeep | hz
    · rw [hkeep]
      exact hne (i + (k + 1)) (huniq (i + (k + 1)) hjlt hji)
    · rw [hz]
      intro hcon
      exact absurd hcon.1 (by omega)
  constructor
  · rw [clientLoop, hm, range_split,
      clientLoopIdx_skip_before (fun x => x == fd) outcome sendRes ackRes
        (List.range i) _ regs hpre,
      clientLoopIdx_data (fun x => x == fd) outcome sendRes ackRes i _
        regs msg hact hout2, hslot,
      clientLoopIdx_skip_all (fun x => x == fd) outcome sendRes ackRes _
        (broadcast_message sendRes fd msg regs).1 hsuf]
    simp
  · rw [clientLoop, clientLoop]
    exact clientLoopIdx_ackRes_irrelevant (fun x => x == fd) outcome
      sendRes ackRes2 ackRes (List.range MAX_CLIENTS) regs

/-- Witness for C10_ack_sent_before_broadcast_and_unchecked: clients 4 and 6
connected, a one-byte message arriving from 4; the acknowledgment event
precedes the broadcast events and two different acknowledgment results give
the same outcome. -/
theorem C10_ack_sent_before_broadcast_and_unchecked_witness :
    (0 : Nat) < MAX_CLIENTS ∧ (0 : Int) < 4
    ∧ List.getD ([4, 6, 0, 0, 0, 0, 0, 0, 0, 0] : List Int) 0 0 = 4
    ∧ (∀ j, j < MAX_CLIENTS → j ≠ 0 →
        List.getD ([4, 6, 0, 0, 0, 0, 0, 0, 0, 0] : List Int) j 0 ≠ 4)
    ∧ (clientLoop (fun x => x == 4) (fun _ => RecvOutcome.data [104])
          (fun _ => 1) (fun _ => 3) [4, 6, 0, 0, 0, 0, 0, 0, 0, 0]
        = ((broadcast_message (fun _ => 1) 4 [104]
              [4, 6, 0, 0, 0, 0, 0, 0, 0, 0]).1,
           Event.ackSent 4 ackBytes
             :: (broadcast_message (fun _ => 1) 4 [104]
                  [4, 6, 0, 0, 0, 0, 0, 0, 0, 0]).2)
       ∧ clientLoop (fun x => x == 4) (fun _ => RecvOutcome.data [104])
           (fun _ => 1) (fun _ => -1) [4, 6, 0, 0, 0, 0, 0, 0, 0, 0]
         = clientLoop (fun x => x == 4) (fun _ => RecvOutcome.data [104])
             (fun _ => 1) (fun _ => 3) [4, 6, 0, 0, 0, 0, 0, 0, 0, 0]) :=
  ⟨by decide, by decide, by decide, by decide,
   C10_ack_sent_before_broadcast_and_unchecked
     [4, 6, 0, 0, 0, 0, 0, 0, 0, 0] 0 4 [104]
     (fun _ => RecvOutcome.data [104]) (fun _ => 1) (fun _ => 3)
     (fun _ => -1) (by decide) (by decide) (by decide) (by decide) rfl⟩

end ChatServer
